import Mathlib

/-!
# Verification of the Tind conversation agent (`src/agent.py`)

Shallow embedding of the response-generation / filtering / persistence
pipeline of `TindAgent`, together with proofs of the spec's claims.

Python strings are modelled by Lean `String`; `str.lower` by mapping
`Char.toLower` over the characters, `str.strip` by dropping whitespace from
both ends, and the Python `in` substring operator by an explicit sublist
search over the character lists.  The JSON training-log file is modelled by
an algebraic state (`TrainingFile`) that distinguishes a missing file, a
malformed file, and a well-formed record array; `datetime.now()` and the
success of disk I/O are passed in as explicit parameters.
-/

namespace Tind

/-- Model of Python `str.lower()` (`Char.toLower`, applied character-wise). -/
def pyLower (s : String) : String :=
  ⟨s.data.map Char.toLower⟩

/-- Model of Python `str.strip()`: remove leading and trailing whitespace. -/
def pyStrip (s : String) : String :=
  ⟨((s.data.dropWhile Char.isWhitespace).reverse.dropWhile Char.isWhitespace).reverse⟩

/-- Sublist (contiguous substring) search on character lists: `subIn needle hay`
is `true` iff `needle` occurs contiguously inside `hay`.  This models the
Python expression `needle in hay` on strings. -/
def subIn (needle : List Char) : List Char → Bool
  | [] => needle.isEmpty
  | c :: t => needle.isPrefixOf (c :: t) || subIn needle t

/-- Model of the Python substring test `w in s`. -/
def strContains (s w : String) : Bool :=
  subIn w.data s.data

/-! ## Constants of `agent.py` -/

/-- `OFFENSIVE_WORDS` (agent.py line 16). -/
def OFFENSIVE_WORDS : List String :=
  ["ódio", "matar", "morrer", "machucar", "violência",
   "hate", "kill", "die", "hurt", "violence"]

/-- Keywords of the sad branch (agent.py line 53). -/
def sadKeywords : List String :=
  ["triste", "down", "chateado", "deprimido", "sad", "upset", "depressed"]

/-- Keywords of the greeting branch (agent.py line 61). -/
def greetingKeywords : List String :=
  ["olá", "oi", "hey", "hello", "hi"]

/-- Keywords of the positive branch (agent.py line 69). -/
def positiveKeywords : List String :=
  ["feliz", "bom", "ótimo", "incrível", "happy", "good", "great", "awesome"]

/-- Reply pool of the sad branch (agent.py lines 54-60). -/
def sadResponses : List String :=
  ["Sinto muito saber disso. Há algo que eu possa fazer para ajudar?",
   "É normal se sentir triste às vezes. Estou aqui para você.",
   "Mandando um abraço virtual. 🤗",
   "Estou aqui para te ouvir se quiser conversar sobre isso.",
   "Lembre-se de que esse sentimento vai passar. Você é mais forte do que imagina."]

/-- Reply pool of the greeting branch (agent.py lines 62-68). -/
def greetingResponses : List String :=
  ["Oi! Que bom te conhecer! Como está sendo seu dia?",
   "Hey! Você parece interessante - o que te trouxe aqui hoje?",
   "Olá! Estava pensando que esta conversa precisava de alguém como você.",
   "Oi! Tenho que dizer, você tem um timing perfeito. E aí?",
   "Hey! Pronto para uma conversa incrível?"]

/-- Reply pool of the positive branch (agent.py lines 70-76). -/
def positiveResponses : List String :=
  ["Que maravilhoso saber disso! Sua energia positiva é contagiante.",
   "Adoro seu entusiasmo! O que está te deixando tão feliz?",
   "Seu bom humor acabou de melhorar meu dia também!",
   "Isso é incrível! Adoraria saber mais sobre o que está indo bem.",
   "Sua felicidade é contagiosa - continue espalhando essas boas vibrações!"]

/-- Default reply pool (agent.py lines 79-85). -/
def defaultResponses : List String :=
  ["Isso é interessante! Me conta mais sobre isso.",
   "Acho isso fascinante. Qual é sua opinião sobre isso?",
   "Você tem uma perspectiva única. Adoraria ouvir mais.",
   "Isso chamou minha atenção. O que te fez pensar nisso?",
   "Ponto interessante! Como você chegou a essa conclusão?"]

/-- The fixed invitation returned on empty/whitespace context (agent.py line 48). -/
def inviteMessage : String := "Eu adoraria conversar! O que está pensando?"

/-- The fixed refusal substituted for offensive responses (agent.py line 99). -/
def refusalMessage : String := "Prefiro manter nossa conversa positiva e respeitosa."

/-! ## Context classification and response generation -/

/-- The coarse intent category selected by keyword matching. -/
inductive Category where
  | sad | greeting | positive | fallback
deriving DecidableEq, Repr

/-- The `if/elif/elif/else` keyword cascade of `generate_responses`
(agent.py lines 50-85), applied to `context.lower().strip()`: the first
category whose keyword list meets the text wins; otherwise the default. -/
def classify (context : String) : Category :=
  let context_lower := pyStrip (pyLower context)
  if sadKeywords.any (fun w => strContains context_lower w) then .sad
  else if greetingKeywords.any (fun w => strContains context_lower w) then .greeting
  else if positiveKeywords.any (fun w => strContains context_lower w) then .positive
  else .fallback

/-- The reply pool assigned to each category (agent.py lines 54-85). -/
def categoryPool : Category → List String
  | .sad => sadResponses
  | .greeting => greetingResponses
  | .positive => positiveResponses
  | .fallback => defaultResponses

/-- The padding loop of `generate_responses` (agent.py lines 88-89):
`while len(responses) < num_responses: responses.extend(responses[:num_responses - len(responses)])`.
The `responses ≠ []` guard makes the recursion well-founded and is vacuous in
every call the agent makes (every reply pool has five entries); on an empty
list with `0 < num` the Python loop would not terminate at all. -/
def padResponses (num : Nat) (responses : List String) : List String :=
  if h : responses.length < num ∧ responses ≠ [] then
    padResponses num (responses ++ responses.take (num - responses.length))
  else responses
termination_by num - responses.length
decreasing_by
  have hlen : 1 ≤ responses.length := by
    cases responses with
    | nil => exact absurd rfl h.2
    | cons a l => simp
  have htake : 1 ≤ (responses.take (num - responses.length)).length := by
    rw [List.length_take]
    exact le_min (by omega) hlen
  rw [List.length_append]
  omega

/-- `TindAgent.generate_responses` (agent.py lines 45-91). -/
def generate_responses (context : String) (num_responses : Nat) : List String :=
  if pyStrip context = "" then [inviteMessage]
  else (padResponses num_responses (categoryPool (classify context))).take num_responses

/-- `TindAgent.filter_responses` (agent.py lines 93-104): an offensive
response is replaced by the fixed refusal, anything else passes through. -/
def filter_responses (responses : List String) : List String :=
  responses.map (fun response =>
    if OFFENSIVE_WORDS.any (fun w => strContains (pyLower response) w) then
      refusalMessage
    else response)

/-! ## The conversation store -/

/-- One entry of the training log (the dict built at agent.py lines 112-117). -/
structure ConversationRecord where
  context : String
  responses : List String
  best_response : String
  timestamp : String
deriving DecidableEq, Repr

/-- The state of the training-data file: absent, present but not parseable
as a JSON record array, or a well-formed record array. -/
inductive TrainingFile where
  | missing
  | malformed
  | good (records : List ConversationRecord)
deriving DecidableEq, Repr

/-- `TindAgent._load_training_data` (agent.py lines 140-149): a missing file
is skipped and a parse/read error is caught and logged; both yield `[]`. -/
def load_training_data : TrainingFile → List ConversationRecord
  | .missing => []
  | .malformed => []
  | .good records => records

/-- `TindAgent.save_conversation` (agent.py lines 106-138).  The wall-clock
timestamp (`_get_timestamp`) and the success of the disk write are outside
the program text, so they enter as the parameters `ts` and `ioOk`; when the
write raises, the `except` arm returns `False` (lines 136-138).  Validation
(line 108) happens before any file access, so the file is untouched on that
path.  Returns the Python return value paired with the resulting file state. -/
def save_conversation (ioOk : Bool) (file : TrainingFile)
    (context : String) (responses : List String) (best_response : String)
    (ts : String) : Bool × TrainingFile :=
  if context = "" ∨ responses = [] ∨ best_response = "" then
    (false, file)
  else if ioOk then
    (true, .good (load_training_data file ++
      [⟨pyStrip context, responses, pyStrip best_response, ts⟩]))
  else
    (false, file)

/-! ## Interleaving model of concurrent `save_conversation` calls

`save_conversation` runs its read-modify-write sequence inside
`with file_lock:` (agent.py lines 119-134), where `file_lock` is the single
module-level `threading.Lock()` (line 19).  We model `N` threads, each
executing one save of its own record: acquire the lock, read the log into a
local snapshot (`_load_training_data`, line 126), write the snapshot plus
its record back (lines 127-131), release the lock.  Program counters:
0 = before `acquire`, 1 = holding the lock before the read, 2 = after the
read, 3 = after the write, 4 = done. -/

/-- Local state of one saving thread: its program counter and the snapshot
of the log it read inside the critical section. -/
structure ThreadState where
  pc : Nat
  snapshot : List ConversationRecord
deriving DecidableEq, Repr

/-- Global state: the persisted log, the holder of `file_lock` (if any),
and the local state of each of the `n` threads. -/
structure AgentSys (n : Nat) where
  log : List ConversationRecord
  lock : Option (Fin n)
  threads : Fin n → ThreadState

/-- One interleaving step of the `n` threads, thread `i` saving record
`recs i`.  `acquire` blocks unless the lock is free; the read, the write and
the release are only available to the thread holding the lock. -/
inductive SaveStep (n : Nat) (recs : Fin n → ConversationRecord) :
    AgentSys n → AgentSys n → Prop where
  | acquire (s : AgentSys n) (i : Fin n) :
      s.lock = none → (s.threads i).pc = 0 →
      SaveStep n recs s
        ⟨s.log, some i, Function.update s.threads i ⟨1, (s.threads i).snapshot⟩⟩
  | readLog (s : AgentSys n) (i : Fin n) :
      s.lock = some i → (s.threads i).pc = 1 →
      SaveStep n recs s
        ⟨s.log, some i, Function.update s.threads i ⟨2, s.log⟩⟩
  | writeLog (s : AgentSys n) (i : Fin n) :
      s.lock = some i → (s.threads i).pc = 2 →
      SaveStep n recs s
        ⟨(s.threads i).snapshot ++ [recs i], some i,
          Function.update s.threads i ⟨3, (s.threads i).snapshot⟩⟩
  | release (s : AgentSys n) (i : Fin n) :
      s.lock = some i → (s.threads i).pc = 3 →
      SaveStep n recs s
        ⟨s.log, none, Function.update s.threads i ⟨4, (s.threads i).snapshot⟩⟩

/-- Initial state: empty training log, lock free, all threads yet to start. -/
def initSys (n : Nat) : AgentSys n :=
  ⟨[], none, fun _ => ⟨0, []⟩⟩

/-- States reachable from the initial state by interleaving the `n` saves. -/
inductive SaveReachable (n : Nat) (recs : Fin n → ConversationRecord) :
    AgentSys n → Prop where
  | init : SaveReachable n recs (initSys n)
  | step {s s' : AgentSys n} :
      SaveReachable n recs s → SaveStep n recs s s' → SaveReachable n recs s'

/-- Contribution of one program counter to the count of completed writes. -/
def wt (pc : Nat) : Nat := if 3 ≤ pc then 1 else 0

/-- Number of threads that have already performed their write. -/
def doneCount {n : Nat} (s : AgentSys n) : Nat :=
  ∑ i : Fin n, wt (s.threads i).pc

/-- The inductive invariant: the log holds exactly the already-written
records; without the lock a thread is before or after its critical section;
the holder is inside it; and a holder that has read but not yet written has
a snapshot equal to the current log. -/
def SysInv {n : Nat} (s : AgentSys n) : Prop :=
  s.log.length = doneCount s ∧
  (∀ i, s.lock ≠ some i → (s.threads i).pc = 0 ∨ (s.threads i).pc = 4) ∧
  (∀ i, s.lock = some i → 1 ≤ (s.threads i).pc ∧ (s.threads i).pc ≤ 3) ∧
  (∀ i, s.lock = some i → (s.threads i).pc = 2 → (s.threads i).snapshot = s.log)

/-- A sample record used to exercise the interleaving model. -/
def oneRec : ConversationRecord := ⟨"c", ["a"], "a", "t"⟩

/-- One thread saving `oneRec`. -/
def oneRecs : Fin 1 → ConversationRecord := fun _ => oneRec

/-! ## Lemmas about the padding loop -/

theorem mem_padResponses {num : Nat} {x : String} {r : List String} :
    x ∈ padResponses num r → x ∈ r := by
  refine padResponses.induct num (fun r => x ∈ padResponses num r → x ∈ r) ?_ ?_ r
  · intro r h ih hx
    rw [padResponses, dif_pos h] at hx
    rcases List.mem_append.mp (ih hx) with h1 | h2
    · exact h1
    · exact List.take_subset _ _ h2
  · intro r h hx
    rwa [padResponses, dif_neg h] at hx

theorem padResponses_length_ge {num : Nat} {r : List String} (hr : r ≠ []) :
    num ≤ (padResponses num r).length := by
  refine padResponses.induct num
    (fun r => r ≠ [] → num ≤ (padResponses num r).length) ?_ ?_ r hr
  · intro r h ih _
    rw [padResponses, dif_pos h]
    exact ih (by simp [h.2])
  · intro r h hne
    rw [padResponses, dif_neg h]
    rcases not_and_or.mp h with h1 | h2
    · omega
    · exact absurd hne h2

theorem append_take_cyc (base r : List String) (k : Nat)
    (hdvd : base.length ∣ r.length)
    (hcyc : ∀ j, j < r.length → r[j]? = base[j % base.length]?) :
    ∀ j, j < (r ++ r.take k).length → (r ++ r.take k)[j]? = base[j % base.length]? := by
  intro j hj
  rcases Nat.lt_or_ge j r.length with hlt | hge
  · rw [List.getElem?_append_left hlt]
    exact hcyc j hlt
  · rw [List.getElem?_append_right hge]
    have hmlt : j - r.length < (r.take k).length := by
      rw [List.length_append] at hj; omega
    have hmk : j - r.length < k := by
      rw [List.length_take] at hmlt; omega
    have hmr : j - r.length < r.length := by
      rw [List.length_take] at hmlt; omega
    rw [List.getElem?_take, if_pos hmk, hcyc _ hmr]
    congr 1
    obtain ⟨q, hq⟩ := hdvd
    have hj' : j = base.length * q + (j - r.length) := by omega
    conv_rhs => rw [hj', Nat.mul_add_mod]

theorem padResponses_cyc (num : Nat) (base : List String) :
    ∀ r : List String, base.length ∣ r.length →
    (∀ j, j < r.length → r[j]? = base[j % base.length]?) →
    ∀ j, j < (padResponses num r).length →
      (padResponses num r)[j]? = base[j % base.length]? := by
  refine padResponses.induct num
    (fun r => base.length ∣ r.length →
      (∀ j, j < r.length → r[j]? = base[j % base.length]?) →
      ∀ j, j < (padResponses num r).length →
        (padResponses num r)[j]? = base[j % base.length]?) ?_ ?_
  · intro r h ih hdvd hcyc
    rw [padResponses, dif_pos h]
    have hcyc' := append_take_cyc base r (num - r.length) hdvd hcyc
    by_cases hk : r.length ≤ num - r.length
    · refine ih ?_ hcyc'
      rw [List.length_append, List.length_take, min_eq_right hk, ← two_mul]
      exact Dvd.dvd.mul_left hdvd 2
    · have hlen' : (r ++ r.take (num - r.length)).length = num := by
        have h1 := h.1
        rw [List.length_append, List.length_take]
        omega
      have hstop : padResponses num (r ++ r.take (num - r.length))
          = r ++ r.take (num - r.length) := by
        rw [padResponses, dif_neg]
        intro hc
        rw [hlen'] at hc
        exact lt_irrefl num hc.1
      rw [hstop]
      exact hcyc'
  · intro r h hdvd hcyc
    rw [padResponses, dif_neg h]
    exact hcyc

theorem categoryPool_length (c : Category) : (categoryPool c).length = 5 := by
  cases c <;> rfl

theorem categoryPool_ne_nil (c : Category) : categoryPool c ≠ [] := by
  cases c <;> simp [categoryPool, sadResponses, greetingResponses,
    positiveResponses, defaultResponses]

/-! ## Lemmas about the interleaving model -/

theorem wt_zero : wt 0 = 0 := rfl
theorem wt_one : wt 1 = 0 := rfl
theorem wt_two : wt 2 = 0 := rfl
theorem wt_three : wt 3 = 1 := rfl
theorem wt_four : wt 4 = 1 := rfl

theorem doneCount_update {n : Nat} (ts : Fin n → ThreadState) (i : Fin n)
    (t : ThreadState) :
    (∑ j : Fin n, wt (Function.update ts i t j).pc) + wt (ts i).pc
      = (∑ j : Fin n, wt (ts j).pc) + wt t.pc := by
  rw [Fintype.sum_eq_add_sum_compl i (fun j => wt (Function.update ts i t j).pc),
      Fintype.sum_eq_add_sum_compl i (fun j => wt (ts j).pc),
      Function.update_same]
  have hrest : ∑ j ∈ ({i}ᶜ : Finset (Fin n)), wt (Function.update ts i t j).pc
      = ∑ j ∈ ({i}ᶜ : Finset (Fin n)), wt (ts j).pc := by
    refine Finset.sum_congr rfl ?_
    intro j hj
    have hji : j ≠ i := by simpa using hj
    rw [Function.update_noteq hji]
  rw [hrest]
  omega

theorem sysInv_init (n : Nat) : SysInv (initSys n) := by
  refine ⟨?_, ?_, ?_, ?_⟩
  · simp [initSys, doneCount, wt]
  · intro i _
    left
    rfl
  · intro i hi
    exact absurd hi (by simp [initSys])
  · intro i hi
    exact absurd hi (by simp [initSys])

theorem sysInv_step {n : Nat} {recs : Fin n → ConversationRecord}
    {s s' : AgentSys n} (hs : SysInv s) (hstep : SaveStep n recs s s') :
    SysInv s' := by
  obtain ⟨hlen, hfree, hhold, hsnap⟩ := hs
  unfold doneCount at hlen
  cases hstep with
  | acquire i hl hpc =>
    have hcount := doneCount_update s.threads i ⟨1, (s.threads i).snapshot⟩
    rw [hpc, wt_zero] at hcount
    refine ⟨?_, ?_, ?_, ?_⟩
    · unfold doneCount
      dsimp only at hcount ⊢
      rw [wt_one] at hcount
      omega
    · intro j hj
      dsimp only at hj ⊢
      have hji : j ≠ i := fun hc => hj (by rw [hc])
      rw [Function.update_noteq hji]
      exact hfree j (by rw [hl]; exact fun hc => Option.noConfusion hc)
    · intro j hj
      dsimp only at hj ⊢
      have hji : j = i := by simpa using hj.symm
      subst hji
      rw [Function.update_same]
      exact ⟨show (1 : Nat) ≤ 1 by omega, show (1 : Nat) ≤ 3 by omega⟩
    · intro j hj hj2
      dsimp only at hj hj2 ⊢
      have hji : j = i := by simpa using hj.symm
      subst hji
      rw [Function.update_same] at hj2
      have h12 : (1 : Nat) = 2 := hj2
      omega
  | readLog i hl hpc =>
    have hcount := doneCount_update s.threads i ⟨2, s.log⟩
    rw [hpc, wt_one] at hcount
    refine ⟨?_, ?_, ?_, ?_⟩
    · unfold doneCount
      dsimp only at hcount ⊢
      rw [wt_two] at hcount
      omega
    · intro j hj
      dsimp only at hj ⊢
      have hji : j ≠ i := by
        intro hc
        subst hc
        exact hj rfl
      rw [Function.update_noteq hji]
      refine hfree j ?_
      rw [hl]
      intro hc
      exact hji (Option.some.inj hc).symm
    · intro j hj
      dsimp only at hj ⊢
      have hji : j = i := by simpa using hj.symm
      subst hji
      rw [Function.update_same]
      exact ⟨show (1 : Nat) ≤ 2 by omega, show (2 : Nat) ≤ 3 by omega⟩
    · intro j hj hj2
      dsimp only at hj hj2 ⊢
      have hji : j = i := by simpa using hj.symm
      subst hji
      rw [Function.update_same]
  | writeLog i hl hpc =>
    have hcount := doneCount_update s.threads i ⟨3, (s.threads i).snapshot⟩
    rw [hpc, wt_two] at hcount
    have hsnapi : (s.threads i).snapshot = s.log := hsnap i hl hpc
    refine ⟨?_, ?_, ?_, ?_⟩
    · unfold doneCount
      dsimp only at hcount ⊢
      rw [wt_three] at hcount
      have hlog : ((s.threads i).snapshot ++ [recs i]).length = s.log.length + 1 := by
        rw [List.length_append, hsnapi, List.length_singleton]
      rw [hlog]
      omega
    · intro j hj
      dsimp only at hj ⊢
      have hji : j ≠ i := by
        intro hc
        subst hc
        exact hj rfl
      rw [Function.update_noteq hji]
      refine hfree j ?_
      rw [hl]
      intro hc
      exact hji (Option.some.inj hc).symm
    · intro j hj
      dsimp only at hj ⊢
      have hji : j = i := by simpa using hj.symm
      subst hji
      rw [Function.update_same]
      exact ⟨show (1 : Nat) ≤ 3 by omega, show (3 : Nat) ≤ 3 by omega⟩
    · intro j hj hj2
      dsimp only at hj hj2 ⊢
      have hji : j = i := by simpa using hj.symm
      subst hji
      rw [Function.update_same] at hj2
      have h32 : (3 : Nat) = 2 := hj2
      omega
  | release i hl hpc =>
    have hcount := doneCount_update s.threads i ⟨4, (s.threads i).snapshot⟩
    rw [hpc, wt_three] at hcount
    refine ⟨?_, ?_, ?_, ?_⟩
    · unfold doneCount
      dsimp only at hcount ⊢
      rw [wt_four] at hcount
      omega
    · intro j _
      dsimp only
      by_cases hji : j = i
      · subst hji
        rw [Function.update_same]
        right
        rfl
      · rw [Function.update_noteq hji]
        refine hfree j ?_
        rw [hl]
        intro hc
        exact hji (Option.some.inj hc).symm
    · intro j hj
      exact absurd hj (by simp)
    · intro j hj
      exact absurd hj (by simp)

theorem sysInv_reachable {n : Nat} {recs : Fin n → ConversationRecord}
    {s : AgentSys n} (hs : SaveReachable n recs s) : SysInv s := by
  induction hs with
  | init => exact sysInv_init n
  | step _ hstep ih => exact sysInv_step ih hstep

/-! ## Auxiliary facts about the fixed strings -/

set_option maxRecDepth 8000 in
theorem refusal_clean :
    ∀ w ∈ OFFENSIVE_WORDS, strContains (pyLower refusalMessage) w = false := by
  decide

set_option maxRecDepth 8000 in
theorem invite_clean :
    OFFENSIVE_WORDS.any (fun w => strContains (pyLower inviteMessage) w) = false := by
  decide

/-! ## The claims -/

/-- C1: for every context that is non-empty after trimming and every count
`n ≥ 1`, `generate_responses` returns exactly `n` strings, and its `i`-th
element (0-based) is entry `i % 5` of the matched category's five-entry
reply pool — so for `n ≤ 5` the first `n` pool entries in declaration
order, and for `n > 5` the pool repeated cyclically from the start and
truncated to exactly `n` entries. -/
theorem claim_C1_generate_count_cyclic (context : String) (n : Nat)
    (hctx : pyStrip context ≠ "") (hn : 1 ≤ n) :
    (generate_responses context n).length = n ∧
    ∀ i, i < n →
      (generate_responses context n)[i]? =
        (categoryPool (classify context))[i % 5]? := by
  unfold generate_responses
  rw [if_neg hctx]
  have hne := categoryPool_ne_nil (classify context)
  have hlen5 := categoryPool_length (classify context)
  have hge : n ≤ (padResponses n (categoryPool (classify context))).length :=
    padResponses_length_ge hne
  constructor
  · rw [List.length_take]
    exact min_eq_left hge
  · intro i hi
    rw [List.getElem?_take, if_pos hi]
    have hbase : ∀ j, j < (categoryPool (classify context)).length →
        (categoryPool (classify context))[j]? =
          (categoryPool (classify context))[j % (categoryPool (classify context)).length]? := by
      intro j hj
      rw [Nat.mod_eq_of_lt hj]
    have hcyc := padResponses_cyc n (categoryPool (classify context))
      (categoryPool (classify context)) dvd_rfl hbase i (lt_of_lt_of_le hi hge)
    rw [hlen5] at hcyc
    exact hcyc

/-- C1 witness: for the sad context and a count of 7, the call returns
7 strings and its element 6 is pool entry 6 % 5 = 1. -/
theorem claim_C1_witness :
    (generate_responses "estou triste" 7).length = 7 ∧
    (generate_responses "estou triste" 7)[6]? =
      (categoryPool (classify "estou triste"))[6 % 5]? :=
  ⟨(claim_C1_generate_count_cyclic "estou triste" 7 (by decide) (by decide)).1,
   (claim_C1_generate_count_cyclic "estou triste" 7 (by decide) (by decide)).2
     6 (by decide)⟩

/-- C2: for a non-empty (after trimming) context, every candidate returned
by `generate_responses` lies in the pool of the classified category, and
classification tests the lowercased, trimmed input against the sad,
greeting, and positive keyword lists in that priority order, falling back
to the default category when none matches — in particular any input
containing a sad keyword classifies as sad even if it also contains
greeting or positive keywords. -/
theorem claim_C2_priority (context : String) (n : Nat)
    (hctx : pyStrip context ≠ "") :
    (∀ x ∈ generate_responses context n, x ∈ categoryPool (classify context)) ∧
    (sadKeywords.any (fun w => strContains (pyStrip (pyLower context)) w) = true →
      classify context = Category.sad) ∧
    (sadKeywords.any (fun w => strContains (pyStrip (pyLower context)) w) = false →
      greetingKeywords.any (fun w => strContains (pyStrip (pyLower context)) w) = true →
      classify context = Category.greeting) ∧
    (sadKeywords.any (fun w => strContains (pyStrip (pyLower context)) w) = false →
      greetingKeywords.any (fun w => strContains (pyStrip (pyLower context)) w) = false →
      positiveKeywords.any (fun w => strContains (pyStrip (pyLower context)) w) = true →
      classify context = Category.positive) ∧
    (sadKeywords.any (fun w => strContains (pyStrip (pyLower context)) w) = false →
      greetingKeywords.any (fun w => strContains (pyStrip (pyLower context)) w) = false →
      positiveKeywords.any (fun w => strContains (pyStrip (pyLower context)) w) = false →
      classify context = Category.fallback) := by
  refine ⟨?_, ?_, ?_, ?_, ?_⟩
  · intro x hx
    unfold generate_responses at hx
    rw [if_neg hctx] at hx
    exact mem_padResponses (List.take_subset _ _ hx)
  · intro h1
    simp [classify, h1]
  · intro h1 h2
    simp [classify, h1, h2]
  · intro h1 h2 h3
    simp [classify, h1, h2, h3]
  · intro h1 h2 h3
    simp [classify, h1, h2, h3]

/-- C2 witness: a context containing a sad, a greeting and a positive
keyword at once classifies as sad, and the generated candidates all come
from the sad pool. -/
theorem claim_C2_witness :
    (∀ x ∈ generate_responses "Estou sad, oi, feliz!" 5,
      x ∈ categoryPool (classify "Estou sad, oi, feliz!")) ∧
    classify "Estou sad, oi, feliz!" = Category.sad :=
  ⟨(claim_C2_priority "Estou sad, oi, feliz!" 5 (by decide)).1,
   (claim_C2_priority "Estou sad, oi, feliz!" 5 (by decide)).2.1 (by decide)⟩

/-- C3: `filter_responses` keeps length and order, replaces exactly the
elements containing a denylisted keyword (tested on the lowercased text)
by the fixed refusal sentence, passes every other element through
verbatim, and consequently no element of the result contains a denylisted
keyword. -/
theorem claim_C3_filter (responses : List String) :
    (filter_responses responses).length = responses.length ∧
    (∀ i : Nat, (filter_responses responses)[i]? =
      (responses[i]?).map (fun r =>
        if OFFENSIVE_WORDS.any (fun w => strContains (pyLower r) w) then
          refusalMessage
        else r)) ∧
    (∀ x ∈ filter_responses responses, ∀ w ∈ OFFENSIVE_WORDS,
      strContains (pyLower x) w = false) := by
  refine ⟨List.length_map _ _, ?_, ?_⟩
  · intro i
    exact List.getElem?_map _ _ _
  · intro x hx w hw
    rcases List.mem_map.mp hx with ⟨r, _, heq⟩
    by_cases hcond : OFFENSIVE_WORDS.any (fun w => strContains (pyLower r) w) = true
    · rw [if_pos hcond] at heq
      rw [← heq]
      exact refusal_clean w hw
    · rw [if_neg hcond] at heq
      rw [← heq]
      cases hsc : strContains (pyLower r) w with
      | false => rfl
      | true => exact absurd (List.any_eq_true.mpr ⟨w, hw, hsc⟩) hcond

/-- C7: for every count, an empty or whitespace-only context bypasses
generation — `generate_responses` returns the one-element list holding
the fixed invitation — and `filter_responses` passes that invitation
through unchanged, since it contains no denylisted keyword. -/
theorem claim_C7_empty_context (context : String) (n : Nat)
    (h : pyStrip context = "") :
    generate_responses context n = [inviteMessage] ∧
    filter_responses [inviteMessage] = [inviteMessage] := by
  constructor
  · unfold generate_responses
    rw [if_pos h]
  · show [if OFFENSIVE_WORDS.any (fun w => strContains (pyLower inviteMessage) w)
      then refusalMessage else inviteMessage] = [inviteMessage]
    rw [invite_clean]
    simp

/-- C7 witness: the whitespace-only context with count 9. -/
theorem claim_C7_witness :
    generate_responses "   " 9 = [inviteMessage] ∧
    filter_responses [inviteMessage] = [inviteMessage] :=
  claim_C7_empty_context "   " 9 (by decide)

/-- C9: the read side is total: a well-formed file yields its persisted
record sequence, while a missing or malformed file yields the empty
sequence instead of an error. -/
theorem claim_C9_load_total :
    load_training_data .missing = [] ∧
    load_training_data .malformed = [] ∧
    ∀ records, load_training_data (.good records) = records :=
  ⟨rfl, rfl, fun _ => rfl⟩

/-- C10: the documented `count ≥ 1` precondition is not checked: with a
context that is non-empty after trimming, `num_responses = 0` yields the
empty list rather than an error or any candidate. -/
theorem claim_C10_zero_count (context : String) (h : pyStrip context ≠ "") :
    generate_responses context 0 = [] := by
  unfold generate_responses
  rw [if_neg h]
  exact List.take_zero _

/-- C10 witness: a concrete non-empty context with count 0. -/
theorem claim_C10_witness : generate_responses "x" 0 = [] :=
  claim_C10_zero_count "x" (by decide)

/-- C8: a save call with an empty context, an empty response list, or an
empty best response returns `false` (no exception in the model: the
function is total) and leaves the training-data file untouched. -/
theorem claim_C8_invalid_save (ioOk : Bool) (file : TrainingFile)
    (context : String) (responses : List String) (best_response : String)
    (ts : String)
    (h : context = "" ∨ responses = [] ∨ best_response = "") :
    save_conversation ioOk file context responses best_response ts
      = (false, file) := by
  unfold save_conversation
  rw [if_pos h]

/-- C8 witness: saving with an empty context leaves the log unchanged. -/
theorem claim_C8_witness :
    save_conversation true (.good []) "" ["a"] "a" "t" = (false, .good []) :=
  claim_C8_invalid_save true (.good []) "" ["a"] "a" "t" (Or.inl rfl)

/-- C4 counterexample: with the non-empty context `" oi "` (and `["a"]`,
`"a"`), save succeeds, yet the last loaded record's context field is the
stripped `"oi"`, not the context `" oi "` that was passed in — refuting the
claim that the stored context field equals the argument verbatim. -/
theorem claim_C4_counterexample :
    (save_conversation true (.good []) " oi " ["a"] "a" "ts").1 = true ∧
    (load_training_data
        (save_conversation true (.good []) " oi " ["a"] "a" "ts").2).getLast?
      = some ⟨"oi", ["a"], "a", "ts"⟩ ∧
    (⟨"oi", ["a"], "a", "ts"⟩ : ConversationRecord).context ≠ " oi " := by
  decide

/-- C4 amended: for non-empty context, responses and best response, a save
whose disk write succeeds returns `true`, and loading the training log then
yields a sequence whose last element has context field `context.strip()`,
responses field equal to the response list verbatim, best-response field
`best_response.strip()`, and the generated timestamp — the context and best
response are stored stripped of surrounding whitespace, not verbatim. -/
theorem claim_C4_amended (file : TrainingFile) (c : String) (r : List String)
    (b : String) (ts : String) (hc : c ≠ "") (hr : r ≠ []) (hb : b ≠ "") :
    (save_conversation true file c r b ts).1 = true ∧
    (load_training_data (save_conversation true file c r b ts).2).getLast?
      = some ⟨pyStrip c, r, pyStrip b, ts⟩ := by
  have hvalid : ¬(c = "" ∨ r = [] ∨ b = "") := by
    push_neg
    exact ⟨hc, hr, hb⟩
  unfold save_conversation
  rw [if_neg hvalid, if_pos rfl]
  exact ⟨rfl, List.getLast?_concat _⟩

/-- C4 witness: the amended statement at the counterexample's input. -/
theorem claim_C4_witness :
    (save_conversation true (.good []) " oi " ["a"] "a" "ts").1 = true ∧
    (load_training_data
        (save_conversation true (.good []) " oi " ["a"] "a" "ts").2).getLast?
      = some ⟨pyStrip " oi ", ["a"], pyStrip "a", "ts"⟩ :=
  claim_C4_amended (.good []) " oi " ["a"] "a" "ts"
    (by decide) (by decide) (by decide)

/-- C5 counterexample: with context `"x"`, responses `["a"]` and best
response `"b"` — non-empty, but `"b"` is not among the responses — save
does not return `false`: it returns `true` and appends a record, so the
store does not validate the membership precondition. -/
theorem claim_C5_counterexample :
    ("b" ∈ (["a"] : List String) → False) ∧
    (save_conversation true (.good []) "x" ["a"] "b" "ts").1 = true ∧
    load_training_data (save_conversation true (.good []) "x" ["a"] "b" "ts").2
      ≠ [] := by
  decide

/-- C5 amended: the store does not re-validate that the best response
appears among the responses: whenever context, responses and best response
are non-empty — even if the best response is not an element of the
responses — a save whose disk write succeeds returns `true` and appends
the record to the log. -/
theorem claim_C5_amended (file : TrainingFile) (c : String) (r : List String)
    (b : String) (ts : String) (hc : c ≠ "") (hr : r ≠ []) (hb : b ≠ "")
    (hmem : b ∉ r) :
    save_conversation true file c r b ts
      = (true, .good (load_training_data file
          ++ [⟨pyStrip c, r, pyStrip b, ts⟩])) := by
  have hvalid : ¬(c = "" ∨ r = [] ∨ b = "") := by
    push_neg
    exact ⟨hc, hr, hb⟩
  unfold save_conversation
  rw [if_neg hvalid, if_pos rfl]

/-- C5 witness: the amended statement at the counterexample's input. -/
theorem claim_C5_witness :
    save_conversation true (.good []) "x" ["a"] "b" "ts"
      = (true, .good [⟨pyStrip "x", ["a"], pyStrip "b", "ts"⟩]) :=
  claim_C5_amended (.good []) "x" ["a"] "b" "ts"
    (by decide) (by decide) (by decide) (by decide)

/-- C6: in the interleaving model of `N` concurrent `save_conversation`
calls — each one acquiring the single module-level lock, reading the log,
writing the appended log, and releasing, exactly as the code's
`with file_lock:` block — every reachable state in which all `N` threads
have finished has a log of exactly `N` records: no append is lost,
regardless of interleaving. -/
theorem claim_C6_no_lost_update (n : Nat) (recs : Fin n → ConversationRecord)
    (s : AgentSys n) (hreach : SaveReachable n recs s)
    (hdone : ∀ i, (s.threads i).pc = 4) :
    s.log.length = n := by
  obtain ⟨hlen, -, -, -⟩ := sysInv_reachable hreach
  rw [hlen]
  unfold doneCount
  rw [Finset.sum_congr rfl (fun i _ => by rw [hdone i, wt_four])]
  simp

/-- C6 witness: a complete run of one saving thread from the empty log
reaches a final state whose log has exactly one record. -/
theorem claim_C6_witness :
    ∃ s : AgentSys 1, SaveReachable 1 oneRecs s ∧
      (∀ i, (s.threads i).pc = 4) ∧ s.log.length = 1 := by
  have h0 : SaveReachable 1 oneRecs (initSys 1) := SaveReachable.init
  have h1 := SaveReachable.step h0 (SaveStep.acquire (initSys 1) 0 rfl rfl)
  have h2 := SaveReachable.step h1 (SaveStep.readLog _ 0 rfl rfl)
  have h3 := SaveReachable.step h2 (SaveStep.writeLog _ 0 rfl rfl)
  have h4 := SaveReachable.step h3 (SaveStep.release _ 0 rfl rfl)
  refine ⟨_, h4, ?_, ?_⟩
  · intro i
    fin_cases i
    rfl
  · exact claim_C6_no_lost_update 1 oneRecs _ h4
      (fun i => by fin_cases i; rfl)

end Tind
